import Mathlib

/-!
# Verification of the AEMbot scheduling / ledger core

A shallow embedding, in Lean 4, of the time/event scheduling and ledger engine
of the AEMbot repository, together with theorems settling the frozen claims
about it.

Modelling conventions:

* Calendar dates (`datetime.date`) are modelled as the integer number of days
  since 1970-01-01 (a Thursday); instants (`datetime`) as integer seconds since
  1970-01-01T00:00:00Z, except in the `mg_zs` module where the source works at
  minute granularity and instants are integer minutes since the epoch.
* Python `//` and `%` (floor division, nonnegative remainder for positive
  modulus) are `Int.ediv` and `Int.emod` (Lean's `/` and `%` on `Int`), which
  agree with Python's on every division in this development — the divisor is
  positive at every use site (constants, or `repeat_days` behind its `> 0`
  guard).
* Python `dict`s (which preserve insertion order) are association lists
  `List (String × α)`; assignment replaces the value in place when the key is
  present and appends otherwise, exactly like a `dict`.
* `str.casefold` / `str.lower` are modelled on the alphabet actually reachable
  in this development (ASCII plus `'Ø'`/`'ø'`); the modelled fragment agrees
  with Python on every string appearing in the claims.
* The JSON document `data.json` is a `Doc` value; `_load`/`_save` round-trip a
  `Doc` unchanged, so an operation that does load → mutate → save is modelled
  as a function `Doc → Doc` whose argument and result are the persisted
  document.  A process restart is invisible in this model because every store
  operation in the source re-reads the persisted file.
-/

namespace AEMbot

/-! ## Python integer arithmetic -/

/-- Python `a // b` (floor division; every divisor in this development is
positive, where Lean's Euclidean `/` coincides with flooring). -/
def pyDiv (a b : Int) : Int := a / b

/-- Python `a % b` (nonnegative for the positive divisors used here). -/
def pyMod (a b : Int) : Int := a % b

/-! ## GameCalendar (`src/utils/date_utils.py`, `src/config.py`) -/

/-- Source `config.GAME_CUTOVER_UTC` — the configured daily cutover hour (default 2). -/
def GAME_CUTOVER_UTC : Int := 2

/-- Seconds per day. -/
def secPerDay : Int := 86400

/-- Source `date_utils.to_game_date`, parametrised by the cutover hour `cut`:
if the instant's UTC time of day is `≥ cut:00:00` the game day is the
instant's date, otherwise the previous date.  Instants are seconds since the
epoch, dates are days since the epoch. -/
def to_game_date (cut : Int) (t : Int) : Int :=
  if cut * 3600 ≤ pyMod t secPerDay then pyDiv t secPerDay else pyDiv t secPerDay - 1

/-- Source `date_utils.from_game_date` — the stable representative instant of a game
day: that day at 12:00 UTC. -/
def from_game_date (d : Int) : Int := d * secPerDay + 43200

/-- Python `date.isoweekday()` — Monday = 1 … Sunday = 7.  Day 0 (1970-01-01) is a
Thursday. -/
def isoweekday (d : Int) : Int := pyMod (d + 3) 7 + 1

/-- Python `date.weekday()` — Monday = 0 … Sunday = 6. -/
def weekdayMon0 (d : Int) : Int := pyMod (d + 3) 7

/-- Source `train_utils._monday_of` — the Monday of the ISO week of `d`. -/
def monday_of (d : Int) : Int := d - weekdayMon0 d

/-- Civil (year, month, day) of an epoch day number
(the standard days-from-civil inverse, as `datetime.date.fromordinal` uses). -/
def civilFromDays (z : Int) : Int × Int × Int :=
  let z' := z + 719468
  let era := pyDiv z' 146097
  let doe := z' - era * 146097
  let yoe := pyDiv (doe - pyDiv doe 1460 + pyDiv doe 36524 - pyDiv doe 146096) 365
  let y := yoe + era * 400
  let doy := doe - (365 * yoe + pyDiv yoe 4 - pyDiv yoe 100)
  let mp := pyDiv (5 * doy + 2) 153
  let d := doy - pyDiv (153 * mp + 2) 5 + 1
  let m := mp + (if mp < 10 then 3 else -9)
  (y + (if m ≤ 2 then 1 else 0), m, d)

/-- Epoch day number of a civil (year, month, day). -/
def daysFromCivil (y m d : Int) : Int :=
  let y' := y - (if m ≤ 2 then 1 else 0)
  let era := pyDiv y' 400
  let yoe := y' - era * 400
  let doy := pyDiv (153 * (m + (if 2 < m then -3 else 9)) + 2) 5 + d - 1
  let doe := yoe * 365 + pyDiv yoe 4 - pyDiv yoe 100 + doy
  era * 146097 + doe - 719468

/-- Decimal rendering of a nonnegative integer, left-padded with zeros to
`width` digits (as `%Y`, `%m`, `%d`, `%02d` format). -/
def padNum (width : Nat) (n : Int) : String :=
  let s := toString n.toNat
  String.mk (List.replicate (width - s.length) '0') ++ s

/-- Source `date_utils.yyyymmdd_from_date` — `d.strftime("%Y%m%d")`. -/
def yyyymmdd_from_date (d : Int) : String :=
  let c := civilFromDays d
  padNum 4 c.1 ++ padNum 2 c.2.1 ++ padNum 2 c.2.2

/-- ISO (year, week number) of an epoch day, per `date.isocalendar()`:
the ISO year/week of a day are those of the Thursday of its ISO week. -/
def isoYearWeek (d : Int) : Int × Int :=
  let thursday := d + 4 - isoweekday d
  let y := (civilFromDays thursday).1
  let jan1 := daysFromCivil y 1 1
  (y, pyDiv (thursday - jan1) 7 + 1)

/-- Source `storage._iso_week_key` — `f"{iso.year}-{iso.week:02d}"`. -/
def iso_week_key (d : Int) : String :=
  let yw := isoYearWeek d
  toString yw.1 ++ "-" ++ padNum 2 yw.2

/-- Source `storage._monday_of_game_week` — `game_day - (isoweekday - 1)` days. -/
def monday_of_game_week (gameDay : Int) : Int := gameDay - (isoweekday gameDay - 1)

/-! ## Python string helpers -/

/-- The (ASCII) whitespace characters that `str.split()`/`str.strip()` split
on. -/
def pyIsSpace (c : Char) : Bool :=
  c = ' ' || c = '\t' || c = '\n' || c = '\x0d' || c = '\x0b' || c = '\x0c'

/-- Python `str.strip()` on the character list. -/
def stripList (l : List Char) : List Char :=
  ((l.dropWhile pyIsSpace).reverse.dropWhile pyIsSpace).reverse

/-- Python `str.strip()`. -/
def pyStrip (s : String) : String := String.mk (stripList s.data)

/-- Python `str.split()` (no separator): maximal runs of non-whitespace. -/
def splitWsAux : List Char → List Char → List (List Char)
  | [], acc => if acc = [] then [] else [acc.reverse]
  | c :: rest, acc =>
    if pyIsSpace c then
      if acc = [] then splitWsAux rest [] else acc.reverse :: splitWsAux rest []
    else splitWsAux rest (c :: acc)

/-- Source `storage._collapse_spaces` — `" ".join((s or "").strip().split())`
(stripping is subsumed by `split()`). -/
def collapse_spaces (s : String) : String :=
  String.mk (List.intercalate [' '] (splitWsAux s.data []))

/-- Python `str.casefold` / `str.lower` on one character, on the alphabet reachable
here (ASCII letters plus `'Ø'`; on that alphabet the two Python methods
agree and are one-to-one on characters). -/
def pyFoldChar (c : Char) : Char :=
  if 'A' ≤ c && c ≤ 'Z' then Char.ofNat (c.toNat + 32)
  else if c = 'Ø' then 'ø'
  else c

/-- Python `str.casefold()` (same fragment as `pyFoldChar`). -/
def pyFold (s : String) : String := String.mk (s.data.map pyFoldChar)

/-- Python `str.lower()` (agrees with `casefold` on the modelled alphabet). -/
def pyLower (s : String) : String := pyFold s

/-- Python `str.upper()` on one ASCII character. -/
def pyUpChar (c : Char) : Char :=
  if 'a' ≤ c && c ≤ 'z' then Char.ofNat (c.toNat - 32) else c

/-- Python `str.upper()`. -/
def pyUpper (s : String) : String := String.mk (s.data.map pyUpChar)

/-- Source `storage._canonical_key` — casefold of the space-collapsed string
(diacritics are kept). -/
def canonical_key (s : String) : String := pyFold (collapse_spaces s)

/-- Python `str.isascii()`. -/
def is_ascii (s : String) : Bool := s.data.all (fun c => c.toNat < 128)

/-- The regex class `[A-Za-z0-9]`. -/
def isAsciiAlnum (c : Char) : Bool :=
  ('A' ≤ c && c ≤ 'Z') || ('a' ≤ c && c ≤ 'z') || ('0' ≤ c && c ≤ '9')

/-- The regex class `[A-Za-z]`. -/
def isAsciiAlpha (c : Char) : Bool :=
  ('A' ≤ c && c ≤ 'Z') || ('a' ≤ c && c ≤ 'z')

/-- Test whether `needle` occurs as a leading block of `hay`. -/
def leadsList : List Char → List Char → Bool
  | [], _ => true
  | _ :: _, [] => false
  | a :: xs, b :: ys => a = b && leadsList xs ys

/-- Python `needle in hay` on strings (contiguous substring). -/
def containsList (needle : List Char) : List Char → Bool
  | [] => leadsList needle []
  | c :: rest => leadsList needle (c :: rest) || containsList needle rest

/-- Python substring test `needle in hay`. -/
def strContains (hay needle : String) : Bool := containsList needle.data hay.data

/-! ## Name matching (`src/storage.py`, lines 21–90) -/

/-- Inner loop of `storage._levenshtein`: given the current row cell
`curr[j-1] = left` and the window `prev[j-1] :: prev[j] :: …` of the previous
row, produce the remaining cells of the current row. -/
def levCells (ca : Char) : List Char → List Nat → Nat → List Nat
  | [], _, _ => []
  | _ :: _, [], _ => []
  | cb :: bs, pj1 :: rest, left =>
    let pj := rest.headD 0
    let ins := left + 1
    let del := pj + 1
    let sub := pj1 + (if ca = cb then 0 else 1)
    let v := min ins (min del sub)
    v :: levCells ca bs rest v

/-- Outer loop of `storage._levenshtein`: fold the rows, `i` being the
1-based index of the current character of `a`. -/
def levRows (b : List Char) : List Char → Nat → List Nat → List Nat
  | [], _, prev => prev
  | ca :: as', i, prev => levRows b as' (i + 1) (i :: levCells ca b prev i)

/-- Source `storage._levenshtein` — textbook dynamic-programming edit distance. -/
def levenshtein (a b : List Char) : Nat :=
  if a = b then 0
  else if a = [] then b.length
  else if b = [] then a.length
  else (levRows b a 1 (List.range (b.length + 1))).getLastD 0

/-- Source `storage._first_last_alnum_equal` — both strings have at least one
`[A-Za-z0-9]` character, and the first and last such characters agree up to
casefolding. -/
def first_last_alnum_equal (a b : String) : Bool :=
  let ra := a.data.filter isAsciiAlnum
  let rb := b.data.filter isAsciiAlnum
  match ra, rb with
  | x :: xs, y :: ys =>
    pyFoldChar x = pyFoldChar y &&
      pyFoldChar ((x :: xs).getLastD x) = pyFoldChar ((y :: ys).getLastD y)
  | _, _ => false

/-- Source `storage._names_equivalent` — rule 1: equal canonical keys; rule 2: both
ASCII, collapsed lengths ≥ 5, matching first/last alphanumeric, and edit
distance ≤ 1 between the casefolded collapsed strings; rule 3: otherwise not
equivalent. -/
def names_equivalent (a b : String) : Bool :=
  if canonical_key a = canonical_key b then true
  else if is_ascii a = true ∧ is_ascii b = true then
    if 5 ≤ min (collapse_spaces a).length (collapse_spaces b).length ∧
        first_last_alnum_equal (collapse_spaces a) (collapse_spaces b) = true then
      decide (levenshtein (pyFold (collapse_spaces a)).data
        (pyFold (collapse_spaces b)).data ≤ 1)
    else false
  else false

/-- Source `storage._pick_display_name` — prefer the variant with more `[A-Za-z]`
characters, ties broken by the longer string, last resort `a`. -/
def pick_display_name (a b : String) : String :=
  let na := (a.data.filter isAsciiAlpha).length
  let nb := (b.data.filter isAsciiAlpha).length
  if na < nb then b
  else if nb = na && a.length < b.length then b
  else a

/-! ## Association lists (Python `dict` with insertion order) -/

/-- Python `m[k] = v` — replace in place if the key exists, else append. -/
def alSet (k : String) (v : α) : List (String × α) → List (String × α)
  | [] => [(k, v)]
  | (k', v') :: rest => if k' = k then (k, v) :: rest else (k', v') :: alSet k v rest

/-- Python `m.get(k)` — `none` when the key is absent. -/
def alGet (k : String) : List (String × α) → Option α
  | [] => none
  | (k', v) :: rest => if k' = k then some v else alGet k rest

/-- Python `k in m`. -/
def alHasKey (k : String) (m : List (String × α)) : Bool :=
  (alGet k m).isSome

/-- Python `m.pop(k)` — the removed value (if any) and the remaining entries. -/
def alPop (k : String) : List (String × α) → Option α × List (String × α)
  | [] => (none, [])
  | (k', v) :: rest =>
    if k' = k then (some v, rest)
    else
      let r := alPop k rest
      (r.1, (k', v) :: r.2)

/-! ## Ledger Store (`src/storage.py`) -/

/-- A stored `ScheduleConfig` (section `schedules`, one per event kind). -/
structure ScheduleCfg where
  first_utc : String
  hhmm_server : String
  weekend_hhmm : Option String
  repeat_days : Int
  updated_at : String
deriving DecidableEq, Repr

/-- The `train` section. -/
structure TrainCfg where
  drivers : List String
  anchor_monday : Option String
  post_full_on_monday : Bool
deriving DecidableEq, Repr

/-- One registered points row `{"name": …, "points": …}`. -/
abbrev PEntry := String × Int

/-- Points section: ISO week key → `YYYYMMDD` key → list of entries. -/
abbrev PointsMap := List (String × List (String × List PEntry))

/-- The persisted `data.json` document; each section is `Option` because the
JSON object may lack the key until the matching `_ensure_*` ran. -/
structure Doc where
  schedules : Option (List (String × Option ScheduleCfg)) := none
  train : Option TrainCfg := none
  auto : Option (List (String × Option Bool)) := none
  fired_marks : Option (List (String × String)) := none
  points : Option PointsMap := none
deriving Repr

/-- The defaults installed by `storage._ensure_auto`. -/
def defaultAuto : List (String × Option Bool) :=
  [("AUTO_DRAW_D", none), ("AUTO_DRAW_W", none),
   ("AUTO_VS_REMINDER", none), ("AUTO_TRAIN_POST", none)]

/-- The defaults installed by `storage._ensure_train`. -/
def defaultTrain : TrainCfg :=
  { drivers := [], anchor_monday := none, post_full_on_monday := true }

/-- The defaults installed by `storage._ensure_schedules`. -/
def defaultSchedules : List (String × Option ScheduleCfg) :=
  [("MG", none), ("ZS", none)]

/-- Source `storage._ensure_auto` — `setdefault` for `auto` and `fired_marks`. -/
def ensure_auto (d : Doc) : Doc :=
  { d with auto := some (d.auto.getD defaultAuto),
           fired_marks := some (d.fired_marks.getD []) }

/-- Source `storage._ensure_schedules`. -/
def ensure_schedules (d : Doc) : Doc :=
  { d with schedules := some (d.schedules.getD defaultSchedules) }

/-- Source `storage._ensure_train`. -/
def ensure_train (d : Doc) : Doc :=
  { d with train := some (d.train.getD defaultTrain) }

/-- Source `storage.mark_fired` — load, ensure, set `fired_marks[key] = now`, save.
`ts` stands for `datetime.now(UTC).isoformat()`. -/
def mark_fired (ts key : String) (d : Doc) : Doc :=
  let e := ensure_auto d
  { e with fired_marks := some (alSet key ts (e.fired_marks.getD [])) }

/-- Source `storage.has_fired` — load, ensure, `key in state.get("fired_marks", {})`.
Pure read: the saved document is not changed. -/
def has_fired (key : String) (d : Doc) : Bool :=
  alHasKey key ((ensure_auto d).fired_marks.getD [])

/-- Source `storage.set_auto_toggle`. -/
def set_auto_toggle (name : String) (v : Bool) (d : Doc) : Doc :=
  let e := ensure_auto d
  { e with auto := some (alSet name (some v) (e.auto.getD defaultAuto)) }

/-- Source `storage.get_auto_toggle` — `state["auto"].get(name)` after ensure. -/
def get_auto_toggle (name : String) (d : Doc) : Option (Option Bool) :=
  alGet name ((ensure_auto d).auto.getD defaultAuto)

/-- Source `storage.set_schedule`. -/
def set_schedule (kind : String) (cfg : ScheduleCfg) (d : Doc) : Doc :=
  let e := ensure_schedules d
  { e with schedules := some (alSet kind (some cfg) (e.schedules.getD defaultSchedules)) }

/-- Source `storage.set_train_config` — each keyword argument is optional; `drivers`
is truncated to the first 10 entries. -/
def set_train_config (drivers : Option (List String)) (anchor : Option String)
    (post : Option Bool) (d : Doc) : Doc :=
  let e := ensure_train d
  let t0 := e.train.getD defaultTrain
  let t1 := match drivers with
    | some ds => { t0 with drivers := ds.take 10 }
    | none => t0
  let t2 := match anchor with
    | some a => { t1 with anchor_monday := some a }
    | none => t1
  let t3 := match post with
    | some b => { t2 with post_full_on_monday := b }
    | none => t2
  { e with train := some t3 }

/-- The structured-store mutators relevant to the fired-marks idempotence
contract (the explicit full-wipe command `/reset_all` is a separate, out of
scope, destructor). -/
inductive StoreOp where
  | opMarkFired (ts key : String)
  | opSetAuto (name : String) (v : Bool)
  | opSetSchedule (kind : String) (cfg : ScheduleCfg)
  | opSetTrain (drivers : Option (List String)) (anchor : Option String) (post : Option Bool)

/-- Interpret one store operation on the persisted document. -/
def applyOp : StoreOp → Doc → Doc
  | .opMarkFired ts key, d => mark_fired ts key d
  | .opSetAuto name v, d => set_auto_toggle name v d
  | .opSetSchedule kind cfg, d => set_schedule kind cfg d
  | .opSetTrain ds a p, d => set_train_config ds a p d

/-- Interpret a sequence of store operations, oldest first. -/
def applyOps (ops : List StoreOp) (d : Doc) : Doc :=
  ops.foldl (fun acc op => applyOp op acc) d

/-! ## PointsLedger (`storage.weekly_summary`, lines 307–408) -/

/-- `config.THRESHOLD` (default 7 200 000). -/
def THRESHOLD : Int := 7200000

/-- One step of the per-day consolidation loop of `weekly_summary`: the state
is the pair `(per_day_display, per_day_merged)` and `e` the next raw entry of
the day's list. -/
def mergeDayStep (st : List (String × String) × List (String × Int)) (e : PEntry) :
    List (String × String) × List (String × Int) :=
  let raw := e.1
  let pts := e.2
  match st.1.find? (fun kv => names_equivalent kv.1 raw) with
  | none =>
    (st.1 ++ [(raw, collapse_spaces raw)], st.2 ++ [(raw, pts)])
  | some hit =>
    let newDisp := pick_display_name hit.2 raw
    let disp' := if newDisp ≠ hit.2 then alSet hit.1 newDisp st.1 else st.1
    (disp', alSet hit.1 ((alGet hit.1 st.2).getD 0 + pts) st.2)

/-- The per-day consolidation (`per_day_display`, `per_day_merged`) of one
day's entry list. -/
def mergeDay (entries : List PEntry) : List (String × String) × List (String × Int) :=
  entries.foldl mergeDayStep ([], [])

/-- The day's eligible display names:
`[per_day_display[k] for k, v in per_day_merged.items() if int(v) >= THRESHOLD]`. -/
def eligiblesOfDay (entries : List PEntry) : List String :=
  let st := mergeDay entries
  st.2.filterMap (fun kv =>
    if THRESHOLD ≤ kv.2 then some ((alGet kv.1 st.1).getD "") else none)

/-- One step of the week-level accumulation loop of `weekly_summary`:
`sc = (sums, counts)`, `dispMap = per_day_display`, `kv` one item of
`per_day_merged`. -/
def accumStep (dispMap : List (String × String))
    (sc : List (String × Int) × List (String × Int)) (kv : String × Int) :
    List (String × Int) × List (String × Int) :=
  let disp := (alGet kv.1 dispMap).getD ""
  let sums := sc.1
  let counts := sc.2
  let next :=
    match sums.find? (fun p => names_equivalent p.1 disp) with
    | none => (alSet disp kv.2 sums, counts)
    | some p =>
      let wk := p.1
      let newDisp := pick_display_name wk disp
      let moved :=
        if newDisp = wk then (sums, counts, wk)
        else
          let sp := alPop wk sums
          let sums1 := alSet newDisp (sp.1.getD 0) sp.2
          let counts1 :=
            if alHasKey wk counts then
              let cp := alPop wk counts
              alSet newDisp (cp.1.getD 0) cp.2
            else counts
          (sums1, counts1, newDisp)
      (alSet moved.2.2 ((alGet moved.2.2 moved.1).getD 0 + kv.2) moved.1, moved.2.1)
  (next.1, alSet disp ((alGet disp next.2).getD 0 + 1) next.2)

/-- Accumulate one day's consolidated totals into `(sums, counts)`. -/
def accumDay (sc : List (String × Int) × List (String × Int)) (entries : List PEntry) :
    List (String × Int) × List (String × Int) :=
  let st := mergeDay entries
  st.2.foldl (accumStep st.1) sc

/-- The Mon–Sat `sums` dictionary of `weekly_summary`: fold the six game days
starting at `monday`; a date key without entries contributes the empty list. -/
def weeklySums (days : List (String × List PEntry)) (monday : Int) :
    List (String × Int) :=
  ((List.range 6).foldl
    (fun sc i => accumDay sc ((alGet (yyyymmdd_from_date (monday + (i : Int))) days).getD []))
    ([], [])).1

/-- Source `averages = \x7bn: sums[n] / 6.0 for n in sums\x7d` — the float division is
modelled in `ℚ`.  (`weekly_summary` special-cases empty `sums` to `{}`, which
coincides with mapping over the empty list.) -/
def weeklyAverages (days : List (String × List PEntry)) (monday : Int) :
    List (String × ℚ) :=
  (weeklySums days monday).map (fun p => (p.1, (p.2 : ℚ) / 6))

/-- The `eligibles_by_day` dictionary. -/
def eligiblesByDay (days : List (String × List PEntry)) (monday : Int) :
    List (String × List String) :=
  (List.range 6).map (fun i =>
    let dk := yyyymmdd_from_date (monday + (i : Int))
    (dk, eligiblesOfDay ((alGet dk days).getD [])))

/-- The value returned by `storage.weekly_summary`. -/
structure WeekSummary where
  week : String
  days : List (String × List PEntry)
  eligibles_by_day : List (String × List String)
  averages : List (String × ℚ)
deriving Repr

/-- Source `storage.weekly_summary` — `t` is the reference instant (seconds since the
epoch); the game week containing it is summarised. -/
def weekly_summary (points : PointsMap) (t : Int) : WeekSummary :=
  let gameToday := to_game_date GAME_CUTOVER_UTC t
  let monday := monday_of_game_week gameToday
  let weekKey := iso_week_key gameToday
  let days := (alGet weekKey points).getD []
  { week := weekKey
    days := days
    eligibles_by_day := eligiblesByDay days monday
    averages := weeklyAverages days monday }

/-! ## DrawEngine (`src/commands/draw.py`, `src/scheduler.py`) -/

/-- Source `draw._exclude_train_drivers` — drop every pool name whose lowercase form
is the lowercase of a nonblank configured train driver. -/
def exclude_train_drivers (pool : List String) (drivers : List String) : List String :=
  let dset := (drivers.filter (fun d => d ≠ "" && pyStrip d ≠ "")).map pyLower
  pool.filter (fun p => ¬ dset.contains (pyLower p))

/-- Outcome of `draw.draw_d` (message sends modelled as constructors). -/
inductive DrawDOutcome where
  | sundayRejected
  | noEligibles
  | drawn (passenger : String) (backups : List String)
deriving DecidableEq, Repr

/-- Source `draw.draw_d`, after the pool has been shuffled: reject when the base
game-day (yesterday) is a game Sunday, reject when the post-exclusion pool is
empty, else the head of the shuffled pool is the passenger and the next up to
two names are the backups.  `baseWeekday` is `base_gd.isoweekday()` and
`shuffledPool` the value of `eligibles` after `random.shuffle`. -/
def draw_d (baseWeekday : Int) (shuffledPool : List String) : DrawDOutcome :=
  if baseWeekday = 7 then .sundayRejected
  else
    match shuffledPool with
    | [] => .noEligibles
    | p :: rest => .drawn p (rest.take 2)

/-- Source `scheduler._maybe_auto_draw_d`, the selection part: identical
Sunday check, empty check and head/take-2 selection — but the pool it is
given is `list(set(eligibles_by_day[base]))` with NO call to
`_exclude_train_drivers` (its extra skip conditions — existing weekly draw,
existing daily draw for today, quiet period — do not touch the pool). -/
def auto_draw_d (baseWeekday : Int) (shuffledEligibles : List String) : DrawDOutcome :=
  if baseWeekday = 7 then .sundayRejected
  else
    match shuffledEligibles with
    | [] => .noEligibles
    | p :: rest => .drawn p (rest.take 2)

/-- The two `if available: backups.append(available.pop(0))` statements of
`draw.draw_w`. -/
def takeUpTo2 : List String → List String × List String
  | [] => ([], [])
  | [x] => ([x], [])
  | x :: y :: rest => ([x, y], rest)

/-- The `for i in range(5)` selection loop of `draw.draw_w`：each iteration
does an unguarded `available.pop(0)` for the passenger (Python raises
`IndexError` on an empty list, modelled as `none`) and then takes up to two
backups. -/
def drawWAssign : Nat → List String → Option (List (String × List String))
  | 0, _ => some []
  | n + 1, avail =>
    match avail with
    | [] => none
    | p :: rest =>
      let tb := takeUpTo2 rest
      match drawWAssign n tb.2 with
      | none => none
      | some more => some ((p, tb.1) :: more)

/-- Outcome of `draw.draw_w` for a given post-exclusion shuffled pool. -/
inductive DrawWOutcome where
  | rejected
  | indexError
  | drawn (picks : List (String × List String))
deriving DecidableEq, Repr

/-- Source `draw.draw_w` from the point where `pool` is the post-exclusion pool
(average-eligibles minus train drivers minus last week's W passengers), about
to be shuffled: fewer than 5 names is rejected with no row written; otherwise
the 5-day selection loop runs on the shuffled pool.  `.indexError` marks the
uncaught `IndexError` raised by `available.pop(0)`; no row has been written
when it is raised, because all `append_sorteo` calls happen after the loop. -/
def draw_w (shuffledPool : List String) : DrawWOutcome :=
  if shuffledPool.length < 5 then .rejected
  else
    match drawWAssign 5 shuffledPool with
    | none => .indexError
    | some picks => .drawn picks

/-- The selection loop of `scheduler._maybe_auto_draw_w`: `for d in days[:5]`,
stopping early (`break`) when the pool runs dry, so it writes one `W` row per
completed iteration. -/
def autoDrawWLoop : List Int → List String → List (Int × String × List String)
  | [], _ => []
  | d :: ds, pool =>
    match pool with
    | [] => []
    | p :: rest =>
      let tb := takeUpTo2 rest
      (d, p, tb.1) :: autoDrawWLoop ds tb.2

/-- The `W` rows `scheduler._maybe_auto_draw_w` appends, given the shuffled
average-eligible pool (its guard already checked `5 ≤ pool.length`) and the
Mon–Sat day list of the target week. -/
def autoDrawWRows (pool : List String) (days : List Int) : List (Int × String × List String) :=
  autoDrawWLoop (days.take 5) pool

/-! ## RecurringEventScheduler (`src/commands/mg_zs.py`)

Instants in this section are **minutes** since the epoch, matching the
minute granularity of the source.  A stored schedule's `first_utc` is kept
as the parsed instant (the ISO-string round-trip is I/O glue; a string that
fails to parse makes the source return the candidate unchanged, a path the
claims do not touch). -/

/-- Value of `int(s)` on a string of decimal digits. -/
def digitsToNat (l : List Char) : Nat :=
  l.foldl (fun acc c => acc * 10 + (c.toNat - 48)) 0

/-- Source `mg_zs._parse_hhmm` — 3–4 digit string, zero-filled to 4, hours < 24 and
minutes < 60; result as (hour, minute). -/
def parse_hhmm (s : String) : Option (Int × Int) :=
  let t := stripList s.data
  if (t.length = 3 || t.length = 4) && t.all Char.isDigit then
    let t4 := List.replicate (4 - t.length) '0' ++ t
    let hh := digitsToNat (t4.take 2)
    let mm := digitsToNat (t4.drop 2)
    if hh < 24 && mm < 60 then some ((hh : Int), (mm : Int)) else none
  else none

/-- A schedule as `mg_zs` reads it back from the store. -/
structure EventCfg where
  first_utc : Int
  hhmm_server : Option String
  weekend_hhmm : Option String
  repeat_days : Int
deriving DecidableEq, Repr

/-- Python truthiness of an optional string field. -/
def truthy : Option String → Bool
  | none => false
  | some s => s ≠ ""

/-- Minutes per day. -/
def minPerDay : Int := 1440

/-- Source `mg_zs._maybe_avoid_overlap_with_mg` — given the MG schedule, a ZS
candidate instant (UTC minutes), the candidate's server calendar day and its
weekend flag: when MG also occurs on that day and its instant (weekend
override applied the same way) equals the candidate, shift the candidate
forward 30 minutes and flag it adjusted. -/
def maybe_avoid_overlap_with_mg (mg : Option EventCfg) (candidate : Int)
    (baseDate : Int) (isWeekend : Bool) : Int × Bool :=
  match mg with
  | none => (candidate, false)
  | some cfg =>
    if cfg.repeat_days ≤ 0 then (candidate, false)
    else
      let mgFirstServer := cfg.first_utc - 120
      let deltaDays := baseDate - pyDiv mgFirstServer minPerDay
      if deltaDays < 0 ∨ pyMod deltaDays cfg.repeat_days ≠ 0 then (candidate, false)
      else
        let hhmm := if isWeekend && truthy cfg.weekend_hhmm then cfg.weekend_hhmm
                    else cfg.hhmm_server
        match parse_hhmm (hhmm.getD "") with
        | none => (candidate, false)
        | some t =>
          let mgServer := baseDate * minPerDay + t.1 * 60 + t.2
          let mgUtc := mgServer + 120
          if mgUtc = candidate then (candidate + 30, true) else (candidate, false)

/-- The MG instant `maybe_avoid_overlap_with_mg` computes for a server day,
`none` exactly when one of its guards bails out. -/
def mgInstantForDay (cfg : EventCfg) (baseDate : Int) (isWeekend : Bool) : Option Int :=
  if cfg.repeat_days ≤ 0 then none
  else
    let deltaDays := baseDate - pyDiv (cfg.first_utc - 120) minPerDay
    if deltaDays < 0 ∨ pyMod deltaDays cfg.repeat_days ≠ 0 then none
    else
      let hhmm := if isWeekend && truthy cfg.weekend_hhmm then cfg.weekend_hhmm
                  else cfg.hhmm_server
      match parse_hhmm (hhmm.getD "") with
      | none => none
      | some t => some (baseDate * minPerDay + t.1 * 60 + t.2 + 120)

/-- The candidate occurrence of `mg_zs._next_occurrences` at step `k`: the
`k`-th repeat day after the first occurrence's server date, with the weekend
time override applied when that day is a server Saturday/Sunday.  Returns
(server day, candidate UTC instant, weekend flag). -/
def occCandidate (cfg : EventCfg) (k : Int) : Option (Int × Int × Bool) :=
  let firstServer := cfg.first_utc - 120
  let baseDate := pyDiv firstServer minPerDay + k * cfg.repeat_days
  let isWeekend := decide (isoweekday baseDate = 6 ∨ isoweekday baseDate = 7)
  let hhmm := if isWeekend && truthy cfg.weekend_hhmm then cfg.weekend_hhmm.getD ""
              else cfg.hhmm_server.getD ""
  match parse_hhmm hhmm with
  | none => none
  | some t => some (baseDate, baseDate * minPerDay + t.1 * 60 + t.2 + 120, isWeekend)

/-- The `kind == "ZS"` branch of `_next_occurrences`: the ZS candidate at step
`k` after the anti-overlap adjustment; the Bool is the "(After MG)" tag. -/
def zsComputedInstant (mg : Option EventCfg) (zs : EventCfg) (k : Int) :
    Option (Int × Bool) :=
  match occCandidate zs k with
  | none => none
  | some c => some (maybe_avoid_overlap_with_mg mg c.2.1 c.1 c.2.2)

/-! ## Redo (`src/commands/redo.py`) -/

/-- One row of a `Vs*_sorteos.csv` draw log. -/
structure Row where
  fecha : String
  semana : String
  tipo : String
  detalle : String
deriving DecidableEq, Repr

/-- Source `redo.redo_d` — rewrite the week's log keeping every row except those
with `tipo.upper() == "D"` whose `detalle` contains `f"for:{yyyymmdd}"`. -/
def redo_d (target : String) (rows : List Row) : List Row :=
  rows.filter (fun r =>
    ¬ (pyUpper r.tipo = "D" && strContains r.detalle ("for:" ++ target)))

/-- A 23-character block matching the regex `Vs(\d{8})_sorteos\\.csv` —
note the doubled backslash inside the raw pattern string: the regex demands a
LITERAL backslash, then any character (the `.`), then `csv`. -/
def redoWShape (l : List Char) : Bool :=
  match l with
  | 'V' :: 's' :: d1 :: d2 :: d3 :: d4 :: d5 :: d6 :: d7 :: d8 ::
      '_' :: 's' :: 'o' :: 'r' :: 't' :: 'e' :: 'o' :: 's' ::
      '\\' :: c :: 'c' :: 's' :: 'v' :: [] =>
    [d1, d2, d3, d4, d5, d6, d7, d8].all Char.isDigit && c ≠ '\n'
  | _ => false

/-- Python `pattern.search(p)` for `re.compile(r"Vs(\d{8})_sorteos\\.csv$")` — some
suffix of `p` is a full match ending at the end of the string (the `$`). -/
def redoWNameMatch (p : String) : Bool :=
  (p.data.tails).any redoWShape

/-- Source `redo.redo_w` on one scanned file: skipped entirely (`continue`) when the
filename does not match the pattern; otherwise the rows with
`semana == iso_week` and `tipo.upper() == "W"` are dropped and the file is
rewritten when anything was dropped.  Returns the resulting rows and the
number of removed rows. -/
def redoWProcessFile (isoWeek : String) (fname : String) (rows : List Row) :
    List Row × Nat :=
  if redoWNameMatch fname then
    let keep := rows.filter (fun r => ¬ (r.semana = isoWeek && pyUpper r.tipo = "W"))
    (keep, rows.length - keep.length)
  else (rows, 0)

/-! ## RotationResolver (`src/utils/train_utils.py`) -/

/-- Source `train_utils.driver_for_day` — `none` on Saturday/Sunday; otherwise the
roster slot `base + (isoweekday - 1)` where `base` is 0 or 5 by the parity of
the floored week count since the anchor Monday; a missing roster, an
out-of-range index or a blank slot yields `"Pending"`. -/
def driver_for_day (drivers10 : List String) (anchorMonday gameDay : Int) :
    Option String :=
  let anchorM := monday_of anchorMonday
  let weekM := monday_of gameDay
  let wd := isoweekday gameDay
  if wd < 1 ∨ 5 < wd then none
  else
    let deltaDays := weekM - anchorM
    let deltaWeeks := pyDiv deltaDays 7
    let weekParity := pyMod deltaWeeks 2
    let base : Int := if weekParity = 0 then 0 else 5
    let idx := base + (wd - 1)
    if drivers10 = [] ∨ (drivers10.length : Int) ≤ idx then some "Pending"
    else
      let name := pyStrip (drivers10.getD idx.toNat "")
      some (if name = "" then "Pending" else name)

/-! ## Association-list lemmas -/

theorem alGet_alSet_self (k : String) (v : α) (m : List (String × α)) :
    alGet k (alSet k v m) = some v := by
  induction m with
  | nil => simp [alSet, alGet]
  | cons hd tl ih =>
    by_cases h : hd.1 = k
    · simp [alSet, alGet, h]
    · simp [alSet, alGet, h, ih]

theorem alGet_alSet_ne {j k : String} (h : j ≠ k) (v : α) (m : List (String × α)) :
    alGet j (alSet k v m) = alGet j m := by
  have h' : ¬ (k = j) := fun e => h e.symm
  induction m with
  | nil => simp [alSet, alGet, h']
  | cons hd tl ih =>
    by_cases hk : hd.1 = k
    · simp [alSet, alGet, hk, h']
    · by_cases hj : hd.1 = j
      · simp [alSet, alGet, hk, hj, h, h']
      · simp [alSet, alGet, hk, hj, ih]

theorem alHasKey_alSet (k k' : String) (v : α) (m : List (String × α))
    (h : alHasKey k m = true) : alHasKey k (alSet k' v m) = true := by
  by_cases hk : k = k'
  · subst hk; simp [alHasKey, alGet_alSet_self]
  · simpa [alHasKey, alGet_alSet_ne hk] using h

theorem alGet_map_snd (f : β → γ) (n : String) (m : List (String × β)) :
    alGet n (m.map (fun p => (p.1, f p.2))) = (alGet n m).map f := by
  induction m with
  | nil => simp [alGet]
  | cons hd tl ih =>
    by_cases h : hd.1 = n
    · simp [alGet, h]
    · simp [alGet, h, ih]

/-! ## Store lemmas -/

/-- Fired-marks dictionary of a persisted document. -/
def firedOf (d : Doc) : List (String × String) := d.fired_marks.getD []

theorem has_fired_eq (key : String) (d : Doc) :
    has_fired key d = alHasKey key (firedOf d) := rfl

theorem firedOf_mark_fired (ts key : String) (d : Doc) :
    firedOf (mark_fired ts key d) = alSet key ts (firedOf d) := rfl

theorem firedOf_set_auto_toggle (name : String) (v : Bool) (d : Doc) :
    firedOf (set_auto_toggle name v d) = firedOf d := rfl

theorem firedOf_set_schedule (kind : String) (cfg : ScheduleCfg) (d : Doc) :
    firedOf (set_schedule kind cfg d) = firedOf d := rfl

theorem firedOf_set_train_config (ds : Option (List String)) (a : Option String)
    (p : Option Bool) (d : Doc) :
    firedOf (set_train_config ds a p d) = firedOf d := rfl

theorem has_fired_applyOp (key : String) (op : StoreOp) (d : Doc)
    (h : has_fired key d = true) : has_fired key (applyOp op d) = true := by
  cases op with
  | opMarkFired ts k =>
    rw [has_fired_eq] at h ⊢
    rw [applyOp, firedOf_mark_fired]
    exact alHasKey_alSet key k ts _ h
  | opSetAuto name v => rwa [has_fired_eq, applyOp, firedOf_set_auto_toggle, ← has_fired_eq]
  | opSetSchedule kind cfg => rwa [has_fired_eq, applyOp, firedOf_set_schedule, ← has_fired_eq]
  | opSetTrain ds a p => rwa [has_fired_eq, applyOp, firedOf_set_train_config, ← has_fired_eq]

theorem has_fired_applyOps (key : String) (ops : List StoreOp) (d : Doc)
    (h : has_fired key d = true) : has_fired key (applyOps ops d) = true := by
  induction ops generalizing d with
  | nil => exact h
  | cons op rest ih => exact ih (applyOp op d) (has_fired_applyOp key op d h)

/-! ## Claim theorems -/

/-- C1.  Once `mark_fired(k)` has run, `has_fired(k)` is true on every later
call: immediately, and after any further sequence of structured-store
operations (marking other keys, toggling features, writing schedules or train
config).  Both operations read the same persisted `fired_marks` map that
`mark_fired` saved before returning, and a simulated restart changes nothing
because every call re-loads the persisted document, which is the `Doc` value
threaded here. -/
theorem mark_fired_then_has_fired_forever (d : Doc) (k ts : String)
    (ops : List StoreOp) :
    has_fired k (applyOps ops (mark_fired ts k d)) = true := by
  refine has_fired_applyOps k ops _ ?_
  rw [has_fired_eq, firedOf_mark_fired]
  simp [alHasKey, alGet_alSet_self]

/-- C10.  `mark_fired(k)` changes only the fired-mark entry for `k`: the
`schedules` section, the `train` config, the `points` data, every observable
auto-toggle value, and every fired mark under a key other than `k` are the
same before and after the call. -/
theorem mark_fired_frame (d : Doc) (k ts : String) :
    (mark_fired ts k d).schedules = d.schedules ∧
    (mark_fired ts k d).train = d.train ∧
    (mark_fired ts k d).points = d.points ∧
    (∀ name, get_auto_toggle name (mark_fired ts k d) = get_auto_toggle name d) ∧
    (∀ j, j ≠ k → alGet j (firedOf (mark_fired ts k d)) = alGet j (firedOf d)) ∧
    (∀ j, j ≠ k → has_fired j (mark_fired ts k d) = has_fired j d) := by
  refine ⟨rfl, rfl, rfl, fun name => rfl, fun j hj => ?_, fun j hj => ?_⟩
  · rw [firedOf_mark_fired]
    exact alGet_alSet_ne hj ts (firedOf d)
  · rw [has_fired_eq, has_fired_eq, firedOf_mark_fired, alHasKey, alHasKey,
      alGet_alSet_ne hj ts (firedOf d)]

/-- Witness for C10 at a concrete store and keys. -/
theorem mark_fired_frame_witness :
    alGet "KEY:a" (firedOf (mark_fired "2025-01-01T00:00:00" "KEY:b" {})) =
      alGet "KEY:a" (firedOf ({} : Doc)) ∧
    has_fired "KEY:a" (mark_fired "2025-01-01T00:00:00" "KEY:b" {}) =
      has_fired "KEY:a" ({} : Doc) := by
  refine ⟨(mark_fired_frame {} "KEY:b" "2025-01-01T00:00:00").2.2.2.2.1 "KEY:a" ?_,
    (mark_fired_frame {} "KEY:b" "2025-01-01T00:00:00").2.2.2.2.2 "KEY:a" ?_⟩ <;> decide

/-- C7.  For every instant `t`, mapping to the game day, taking the canonical
noon representative, and mapping back gives the same game day — for every
cutover hour between 0 and 12, which covers the configured
`GAME_CUTOVER_UTC = 2`. -/
theorem to_game_date_roundtrip (cut t : Int) (h0 : 0 ≤ cut) (h12 : cut ≤ 12) :
    to_game_date cut (from_game_date (to_game_date cut t)) = to_game_date cut t := by
  have key : ∀ g : Int, to_game_date cut (from_game_date g) = g := by
    intro g
    simp only [to_game_date, from_game_date, pyDiv, pyMod, secPerDay]
    split <;> omega
  exact key (to_game_date cut t)

/-- Witness for C7 at the configured cutover hour and a concrete instant. -/
theorem to_game_date_roundtrip_witness :
    to_game_date GAME_CUTOVER_UTC
        (from_game_date (to_game_date GAME_CUTOVER_UTC 1758463199)) =
      to_game_date GAME_CUTOVER_UTC 1758463199 :=
  to_game_date_roundtrip GAME_CUTOVER_UTC 1758463199 (by decide) (by decide)

/-- C9.  `driver_for_day` returns `none` on Saturday/Sunday; on a weekday
with isoweekday `w` it returns the roster slot at index `w - 1` within the
half selected by the parity of `⌊(mondayOf(gameDay) - mondayOf(anchor)) / 7⌋`
(even half `0–4`, odd half `5–9`), with a missing roster, an out-of-range
index or a blank slot giving the sentinel `"Pending"` — always a defined
value, never an error. -/
theorem driver_for_day_claim (drivers : List String) (anchor day : Int) :
    ((isoweekday day = 6 ∨ isoweekday day = 7) →
      driver_for_day drivers anchor day = none) ∧
    (∀ w : Int, isoweekday day = w → 1 ≤ w → w ≤ 5 →
      driver_for_day drivers anchor day =
        some (
          let idx : Int :=
            (if pyMod (pyDiv (monday_of day - monday_of anchor) 7) 2 = 0
             then 0 else 5) + (w - 1)
          if drivers = [] ∨ (drivers.length : Int) ≤ idx then "Pending"
          else if pyStrip (drivers.getD idx.toNat "") = "" then "Pending"
          else pyStrip (drivers.getD idx.toNat ""))) := by
  constructor
  · intro h
    have hw : isoweekday day < 1 ∨ 5 < isoweekday day := by
      rcases h with h | h <;> omega
    simp only [driver_for_day, if_pos hw]
  · intro w hw h1 h5
    have hnotw : ¬ (w < 1 ∨ 5 < w) := by omega
    simp only [driver_for_day, hw]
    rw [if_neg hnotw]
    split <;> split <;> rfl

/-- Witness for C9: the weekend clause on a game Saturday, and the weekday
clause on a Wednesday in the odd half-cycle (anchor 2025-09-15, day
2025-09-24, roster slot index 7). -/
theorem driver_for_day_witness :
    driver_for_day ["a", "b", "c", "d", "e", "f", "g", "h", "i", "j"]
        (daysFromCivil 2025 9 15) (daysFromCivil 2025 9 20) = none ∧
    driver_for_day ["a", "b", "c", "d", "e", "f", "g", "h", "i", "j"]
        (daysFromCivil 2025 9 15) (daysFromCivil 2025 9 24) = some "h" := by
  constructor
  · exact (driver_for_day_claim _ (daysFromCivil 2025 9 15)
      (daysFromCivil 2025 9 20)).1 (by decide)
  · have h := (driver_for_day_claim ["a", "b", "c", "d", "e", "f", "g", "h", "i", "j"]
      (daysFromCivil 2025 9 15) (daysFromCivil 2025 9 24)).2 3 (by decide)
      (by decide) (by decide)
    rw [h]
    decide

/-- C3 example schedules: MG at server 10:00 every 2 days, ZS at server 10:00
every 3 days, common first occurrence on server day 20000. -/
def mgConfigEx : EventCfg :=
  { first_utc := 20000 * 1440 + 600 + 120, hhmm_server := some "1000",
    weekend_hhmm := none, repeat_days := 2 }

/-- ZS side of the C3 example. -/
def zsConfigEx : EventCfg :=
  { first_utc := 20000 * 1440 + 600 + 120, hhmm_server := some "1000",
    weekend_hhmm := none, repeat_days := 3 }

/-- Closed form of the anti-overlap adjustment: it shifts exactly when the MG
instant for the same day is defined and equals the candidate. -/
theorem maybe_avoid_spec (cfg : EventCfg) (cand baseDate : Int) (w : Bool) :
    maybe_avoid_overlap_with_mg (some cfg) cand baseDate w =
      (match mgInstantForDay cfg baseDate w with
        | none => (cand, false)
        | some m => if m = cand then (cand + 30, true) else (cand, false)) := by
  simp only [maybe_avoid_overlap_with_mg, mgInstantForDay]
  split
  · rfl
  · split
    · rfl
    · cases hp : parse_hhmm ((if w && truthy cfg.weekend_hhmm then cfg.weekend_hhmm
          else cfg.hhmm_server).getD "") with
      | none => simp [hp]
      | some t => simp [hp]

/-- C3.  When a ZS candidate instant on a day equals the MG instant computed
for that same day, the candidate is shifted forward exactly 30 minutes and
tagged adjusted; applying the adjustment to the shifted instant changes
nothing (deterministic, idempotent tie-break).  Concretely, with MG at server
10:00 every 2 days and ZS at server 10:00 every 3 days from a common start
date, on the first coincidence day (6 days in) ZS's computed instant is
exactly MG's plus 30 minutes. -/
theorem zs_overlap_shift :
    (∀ (cfg : EventCfg) (c baseDate : Int) (w : Bool),
      mgInstantForDay cfg baseDate w = some c →
        maybe_avoid_overlap_with_mg (some cfg) c baseDate w = (c + 30, true) ∧
        maybe_avoid_overlap_with_mg (some cfg) (c + 30) baseDate w = (c + 30, false)) ∧
    mgInstantForDay mgConfigEx 20006 false = some 28809360 ∧
    zsComputedInstant (some mgConfigEx) zsConfigEx 2 = some (28809360 + 30, true) := by
  refine ⟨?_, by decide, by decide⟩
  intro cfg c baseDate w h
  constructor
  · rw [maybe_avoid_spec, h]; simp
  · rw [maybe_avoid_spec, h]; simp

/-- Witness for C3: the general shift applied at the example configuration on
the coincidence day. -/
theorem zs_overlap_shift_witness :
    maybe_avoid_overlap_with_mg (some mgConfigEx) 28809360 20006 false =
      (28809360 + 30, true) ∧
    maybe_avoid_overlap_with_mg (some mgConfigEx) (28809360 + 30) 20006 false =
      (28809360 + 30, false) :=
  zs_overlap_shift.1 mgConfigEx 28809360 20006 false (by decide)

/-- Selection core shared by both daily-draw call sites: a drawn passenger
and every backup come from the shuffled pool, and a game-Sunday base day is
rejected before anything is selected. -/
theorem draw_d_mem (baseWd : Int) (pool shuffled : List String)
    (hperm : shuffled.Perm pool) :
    (baseWd = 7 → draw_d baseWd shuffled = .sundayRejected) ∧
    (∀ p bks, draw_d baseWd shuffled = .drawn p bks →
      p ∈ pool ∧ ∀ b ∈ bks, b ∈ pool) := by
  constructor
  · intro h
    simp [draw_d, h]
  · intro p bks hdrawn
    by_cases h7 : baseWd = 7
    · simp [draw_d, h7] at hdrawn
    · cases hs : shuffled with
      | nil => rw [hs] at hdrawn; simp [draw_d, h7] at hdrawn
      | cons q rest =>
        rw [hs] at hdrawn
        simp only [draw_d, if_neg h7] at hdrawn
        obtain ⟨hq, hb⟩ := DrawDOutcome.drawn.inj hdrawn
        have hsub : ∀ x ∈ shuffled, x ∈ pool := fun x hx => hperm.subset hx
        constructor
        · exact hsub p (by rw [hs, ← hq]; exact List.mem_cons_self q rest)
        · intro b hbks
          refine hsub b ?_
          rw [hs]
          exact List.mem_cons_of_mem q (List.take_subset 2 rest (hb ▸ hbks))

/-- C4 (amended).  The manual daily draw (`/draw D`) selects passenger and
backups only from the prior game-day's threshold-eligibles minus the
train-driver roster; the automatic daily draw selects only from the prior
game-day's threshold-eligibles, WITHOUT subtracting the roster (its pool is
built with no `_exclude_train_drivers` call); both are rejected, writing
nothing, whenever the prior game-day is a game Sunday. -/
theorem draw_d_claim :
    (∀ (baseWd : Int) (eligibles drivers shuffled : List String),
      shuffled.Perm (exclude_train_drivers eligibles.dedup drivers) →
      (baseWd = 7 → draw_d baseWd shuffled = .sundayRejected) ∧
      (∀ p bks, draw_d baseWd shuffled = .drawn p bks →
        p ∈ exclude_train_drivers eligibles.dedup drivers ∧
        ∀ b ∈ bks, b ∈ exclude_train_drivers eligibles.dedup drivers)) ∧
    (∀ (baseWd : Int) (eligibles shuffled : List String),
      shuffled.Perm eligibles.dedup →
      (baseWd = 7 → auto_draw_d baseWd shuffled = .sundayRejected) ∧
      (∀ p bks, auto_draw_d baseWd shuffled = .drawn p bks →
        p ∈ eligibles.dedup ∧ ∀ b ∈ bks, b ∈ eligibles.dedup)) := by
  constructor
  · intro baseWd eligibles drivers shuffled hperm
    exact draw_d_mem baseWd _ shuffled hperm
  · intro baseWd eligibles shuffled hperm
    exact draw_d_mem baseWd _ shuffled hperm

/-- Counterexample to C4 as stated: with prior-day eligibles `{C}` and
train-driver roster `{C}`, the automatic daily draw still draws passenger
`"C"` (its singleton pool shuffles to itself), even though the set the claim
allows — eligibles minus the roster — is empty. -/
theorem draw_d_roster_counterexample :
    auto_draw_d 2 ["C"] = .drawn "C" [] ∧
    (["C"] : List String).dedup = ["C"] ∧
    exclude_train_drivers (["C"] : List String).dedup ["C"] = [] := by
  refine ⟨by decide, by decide, by decide⟩

/-- Witness for C4: pool `{A, B, C}` with roster `{C}` — on the manual path a
drawn passenger/backup lives in `{A, B}`, and the Sunday case is rejected. -/
theorem draw_d_witness :
    draw_d 7 ["B", "A"] = .sundayRejected ∧
    "B" ∈ exclude_train_drivers (["A", "B", "C"].dedup) ["C"] ∧
    "A" ∈ exclude_train_drivers (["A", "B", "C"].dedup) ["C"] := by
  have hperm : (["B", "A"] : List String).Perm
      (exclude_train_drivers (["A", "B", "C"].dedup) ["C"]) := by
    have he : exclude_train_drivers (["A", "B", "C"].dedup) ["C"] = ["A", "B"] := by
      decide
    rw [he]
    exact List.Perm.swap "A" "B" []
  have h := draw_d_claim.1 7 ["A", "B", "C"] ["C"] ["B", "A"] hperm
  have h2 := draw_d_claim.1 2 ["A", "B", "C"] ["C"] ["B", "A"] hperm
  have hdrawn := (h2.2 "B" ["A"]) (by decide)
  exact ⟨h.1 rfl, hdrawn.1, hdrawn.2 "A" (by decide)⟩

/-- C2 (evidence).  The weekly draw's own guard demands only 5 eligible
names ("Not enough … to assign 5 passengers"), but the selection loop
consumes up to three names per day, so a pool of exactly 5 passes the guard
and then crashes (`IndexError` from `available.pop(0)` on day 3) before any
row is appended; a pool of 4 is rejected; the automatic weekly draw breaks
out of its loop instead, silently writing only 2 of the 5 required rows; a
pool of 13 is the smallest that lets the manual loop finish, producing the
5 per-day assignments consuming the pool without replacement. -/
theorem draw_w_pool_of_five :
    draw_w ["A", "B", "C", "D", "E"] = .indexError ∧
    draw_w ["A", "B", "C", "D"] = .rejected ∧
    (autoDrawWRows ["A", "B", "C", "D", "E"]
      [20352, 20353, 20354, 20355, 20356, 20357]).length = 2 ∧
    draw_w ["A", "B", "C", "D", "E", "F", "G", "H", "I", "J", "K", "L", "M"] =
      .drawn [("A", ["B", "C"]), ("D", ["E", "F"]), ("G", ["H", "I"]),
              ("J", ["K", "L"]), ("M", [])] := by
  refine ⟨by decide, by decide, by decide, by decide⟩

/-- C8 example log: three `D` rows for `20250921`, two `W` rows, one `D` row
for another date. -/
def redoRowsEx : List Row :=
  [⟨"20250920", "2025-38", "D", "D|for:20250921|passenger:A|backups:B,C"⟩,
   ⟨"20250920", "2025-38", "D", "D|for:20250921|passenger:B|backups:C"⟩,
   ⟨"20250921", "2025-38", "W", "W|for:20250922|passenger:E|backups:F"⟩,
   ⟨"20250920", "2025-38", "D", "D|for:20250921|passenger:C|backups:"⟩,
   ⟨"20250921", "2025-38", "W", "W|for:20250923|passenger:G|backups:"⟩,
   ⟨"20250919", "2025-38", "D", "D|for:20250920|passenger:H|backups:"⟩]

/-- C8 example weekly log: two `W` rows of ISO week `2025-39`. -/
def redoWRowsEx : List Row :=
  [⟨"20250928", "2025-39", "W", "W|for:20250929|passenger:A|backups:B"⟩,
   ⟨"20250928", "2025-39", "W", "W|for:20250930|passenger:C|backups:"⟩]

/-- C8 (evidence).  `redo_d` removes exactly the `D` rows targeting the given
date (the example leaves the 2 `W` rows plus the other-date `D` row, in
order).  `redo_w`, however, never removes anything: its filename pattern
`Vs(\d{8})_sorteos\\.csv` — a doubled backslash inside a raw string — demands
a literal backslash before `csv`, so no real weekly log path matches, every
file is skipped, and even rows that satisfy the removal predicate survive. -/
theorem redo_rewrite_claim :
    redo_d "20250921" redoRowsEx =
      [⟨"20250921", "2025-38", "W", "W|for:20250922|passenger:E|backups:F"⟩,
       ⟨"20250921", "2025-38", "W", "W|for:20250923|passenger:G|backups:"⟩,
       ⟨"20250919", "2025-38", "D", "D|for:20250920|passenger:H|backups:"⟩] ∧
    redoWNameMatch "data/Vs20250928_sorteos.csv" = false ∧
    redoWProcessFile "2025-39" "data/Vs20250928_sorteos.csv" redoWRowsEx =
      (redoWRowsEx, 0) ∧
    (redoWRowsEx.filter
      (fun r => ¬ (r.semana = "2025-39" && pyUpper r.tipo = "W"))).length = 0 := by
  refine ⟨by decide, by decide, by decide, by decide⟩

/-- Unfolded characterisation of `names_equivalent`, in the shape the spec
states it. -/
theorem names_equivalent_iff (a b : String) :
    names_equivalent a b = true ↔
      (canonical_key a = canonical_key b ∨
       ((is_ascii a = true ∧ is_ascii b = true) ∧
        (5 ≤ min (collapse_spaces a).length (collapse_spaces b).length ∧
         first_last_alnum_equal (collapse_spaces a) (collapse_spaces b) = true) ∧
        levenshtein (pyFold (collapse_spaces a)).data
          (pyFold (collapse_spaces b)).data ≤ 1)) := by
  unfold names_equivalent
  by_cases h1 : canonical_key a = canonical_key b
  · simp [h1]
  · rw [if_neg h1]
    by_cases h2 : is_ascii a = true ∧ is_ascii b = true
    · rw [if_pos h2]
      by_cases h3 : 5 ≤ min (collapse_spaces a).length (collapse_spaces b).length ∧
          first_last_alnum_equal (collapse_spaces a) (collapse_spaces b) = true
      · rw [if_pos h3]
        simp [h1, h2, h3]
      · rw [if_neg h3]
        constructor
        · intro hfalse
          exact absurd hfalse Bool.false_ne_true
        · rintro (hc | ⟨_, hc3, _⟩)
          · exact absurd hc h1
          · exact absurd hc3 h3
    · rw [if_neg h2]
      constructor
      · intro hfalse
        exact absurd hfalse Bool.false_ne_true
      · rintro (hc | ⟨hc2, _⟩)
        · exact absurd hc h1
        · exact absurd hc2 h2

/-- C6.  Two names are the same identity iff they agree after whitespace
collapsing and casefolding, or both are ASCII with collapsed length ≥ 5,
share first and last alphanumeric character, and have casefolded edit
distance ≤ 1; a non-ASCII name never fuzzy-matches a different name (it can
only match via canonical equality); and the kept display name is the variant
with more alphabetic characters, ties broken by length — so "ChikenLobo" and
"ChickenLobo" merge under "ChickenLobo", while "ANGELO" and "ANGELØ" never
merge. -/
theorem fuzzy_reconciliation_claim :
    (∀ a b : String,
      names_equivalent a b = true ↔
        (canonical_key a = canonical_key b ∨
         ((is_ascii a = true ∧ is_ascii b = true) ∧
          (5 ≤ min (collapse_spaces a).length (collapse_spaces b).length ∧
           first_last_alnum_equal (collapse_spaces a) (collapse_spaces b) = true) ∧
          levenshtein (pyFold (collapse_spaces a)).data
            (pyFold (collapse_spaces b)).data ≤ 1))) ∧
    (∀ a b : String, is_ascii a = false → names_equivalent a b = true →
        canonical_key a = canonical_key b) ∧
    names_equivalent "ChikenLobo" "ChickenLobo" = true ∧
    pick_display_name "ChikenLobo" "ChickenLobo" = "ChickenLobo" ∧
    pick_display_name "ChickenLobo" "ChikenLobo" = "ChickenLobo" ∧
    names_equivalent "ANGELO" "ANGELØ" = false ∧
    names_equivalent "ANGELØ" "ANGELO" = false := by
  refine ⟨names_equivalent_iff, ?_, by decide, by decide, by decide, by decide, by decide⟩
  intro a b ha h
  rcases (names_equivalent_iff a b).mp h with hc | ⟨⟨ha', _⟩, _⟩
  · exact hc
  · rw [ha] at ha'
    exact absurd ha' (by simp)

/-- Witness for C6: the non-ASCII clause applied at `"ANGELØ"` and a
whitespace/case variant of itself. -/
theorem fuzzy_reconciliation_witness :
    canonical_key "ANGELØ" = canonical_key " angelø " :=
  fuzzy_reconciliation_claim.2.1 "ANGELØ" " angelø " (by decide) (by decide)

/-- C5 example week: the game week of Monday 2025-09-15. -/
def exampleMonday : Int := daysFromCivil 2025 9 15

/-- C5 example data: Alice registered only Monday (1,000,000) and Wednesday
(7,200,000). -/
def examplePoints : PointsMap :=
  [(iso_week_key exampleMonday,
    [(yyyymmdd_from_date exampleMonday, [("Alice", 1000000)]),
     (yyyymmdd_from_date (exampleMonday + 2), [("Alice", 7200000)])])]

/-- C5.  Every reported weekly average is the player's Mon–Sat sum divided by
the fixed constant 6 — days without an entry contribute 0 to the sum and the
denominator never shrinks: Alice, with entries only Monday 1,000,000 and
Wednesday 7,200,000, averages (1,000,000 + 7,200,000) / 6, not / 2. -/
theorem weekly_average_fixed_denominator :
    (∀ (days : List (String × List PEntry)) (monday : Int),
      weeklyAverages days monday =
        (weeklySums days monday).map (fun p => (p.1, (p.2 : ℚ) / 6))) ∧
    (∀ (days : List (String × List PEntry)) (monday : Int) (n : String) (q : ℚ),
      alGet n (weeklyAverages days monday) = some q →
        ∃ s : Int, alGet n (weeklySums days monday) = some s ∧ q = (s : ℚ) / 6) ∧
    (weekly_summary examplePoints (from_game_date exampleMonday)).averages =
      [("Alice", (8200000 : ℚ) / 6)] ∧
    (8200000 : ℚ) / 6 ≠ (8200000 : ℚ) / 2 := by
  refine ⟨fun days monday => rfl, ?_, ?_, by norm_num⟩
  · intro days monday n q h
    have hget : alGet n (weeklyAverages days monday) =
        (alGet n (weeklySums days monday)).map (fun s : Int => (s : ℚ) / 6) :=
      alGet_map_snd (fun s : Int => (s : ℚ) / 6) n (weeklySums days monday)
    rw [hget] at h
    cases hg : alGet n (weeklySums days monday) with
    | none => rw [hg] at h; exact absurd h (by simp)
    | some s =>
      rw [hg] at h
      exact ⟨s, rfl, by injection h with hq; exact hq.symm⟩
  · have hA : (weekly_summary examplePoints (from_game_date exampleMonday)).averages =
        (weeklySums
          ((alGet (iso_week_key (to_game_date GAME_CUTOVER_UTC (from_game_date exampleMonday)))
            examplePoints).getD [])
          (monday_of_game_week (to_game_date GAME_CUTOVER_UTC (from_game_date exampleMonday)))).map
          (fun p => (p.1, (p.2 : ℚ) / 6)) := rfl
    have hs : weeklySums
        ((alGet (iso_week_key (to_game_date GAME_CUTOVER_UTC (from_game_date exampleMonday)))
          examplePoints).getD [])
        (monday_of_game_week (to_game_date GAME_CUTOVER_UTC (from_game_date exampleMonday))) =
        [("Alice", 8200000)] := by decide
    rw [hA, hs]
    norm_num

/-- Witness for C5: the map-lookup consequence applied at the example data. -/
theorem weekly_average_fixed_denominator_witness :
    ∃ s : Int,
      alGet "Alice" (weeklySums
        [(yyyymmdd_from_date exampleMonday, [("Alice", 1000000)]),
         (yyyymmdd_from_date (exampleMonday + 2), [("Alice", 7200000)])]
        exampleMonday) = some s ∧
      (8200000 : ℚ) / 6 = (s : ℚ) / 6 := by
  refine weekly_average_fixed_denominator.2.1
    [(yyyymmdd_from_date exampleMonday, [("Alice", 1000000)]),
     (yyyymmdd_from_date (exampleMonday + 2), [("Alice", 7200000)])]
    exampleMonday "Alice" ((8200000 : ℚ) / 6) ?_
  have hs : weeklySums
      [(yyyymmdd_from_date exampleMonday, [("Alice", 1000000)]),
       (yyyymmdd_from_date (exampleMonday + 2), [("Alice", 7200000)])]
      exampleMonday = [("Alice", 8200000)] := by decide
  rw [show weeklyAverages
      [(yyyymmdd_from_date exampleMonday, [("Alice", 1000000)]),
       (yyyymmdd_from_date (exampleMonday + 2), [("Alice", 7200000)])]
      exampleMonday =
      (weeklySums
        [(yyyymmdd_from_date exampleMonday, [("Alice", 1000000)]),
         (yyyymmdd_from_date (exampleMonday + 2), [("Alice", 7200000)])]
        exampleMonday).map (fun p => (p.1, (p.2 : ℚ) / 6)) from rfl, hs]
  simp [alGet]

end AEMbot
